import Mathlib

/-!
Verification of the BTHome v2 service-data decoder (`bthome/src/lib.rs`).

The decoder is shallowly embedded: the byte slice becomes `List Nat`
(each element a byte value), the `Cursor`/`Read` pair becomes explicit
state passing of the not-yet-consumed suffix, `Result<T, Error>` becomes
`Except Error T`, and `f32` values become exact dyadic rationals in the
`F32` carrier (IEEE-754 binary32 round-to-nearest-even on the normal
range, which covers every magnitude this decoder can produce).  Machine
integers are `Nat`/`Int` with explicit two's-complement reduction where
the source casts between widths.
-/

namespace BTHome

/-- Kind of an `std::io::Error`.  Reading from a `Cursor` over a byte
slice can only fail with `UnexpectedEof`, which is the one kind the
parser inspects, so it is the only kind modelled. -/
inductive IoErrorKind
  | UnexpectedEof
deriving DecidableEq

/-- The `Error` enum of the source (`lib.rs` lines 7-14). -/
inductive Error
  | IoError (kind : IoErrorKind)
  | InvalidTextEncoding
  | InvalidObjectId (b : Nat)
  | InvalidButtonEvent (b : Nat)
  | InvalidDimmerEvent (b : Nat)
deriving DecidableEq

/-- The `ButtonEvent` enum (`lib.rs` lines 16-27). -/
inductive ButtonEvent
  | None
  | Press
  | DoublePress
  | TriplePress
  | LongPress
  | LongDoublePress
  | LongTriplePress
  | HoldPress
deriving DecidableEq

/-- `TryFrom<u8> for ButtonEvent` (`lib.rs` lines 29-44): the discriminants
are 0x00-0x06 and 0x80; anything else is `InvalidButtonEvent`. -/
def ButtonEvent.try_from (v : Nat) : Except Error ButtonEvent :=
  match v with
  | 0x00 => .ok .None
  | 0x01 => .ok .Press
  | 0x02 => .ok .DoublePress
  | 0x03 => .ok .TriplePress
  | 0x04 => .ok .LongPress
  | 0x05 => .ok .LongDoublePress
  | 0x06 => .ok .LongTriplePress
  | 0x80 => .ok .HoldPress
  | _ => .error (.InvalidButtonEvent v)

/-- The `DimmerEvent` enum (`lib.rs` lines 46-52). -/
inductive DimmerEvent
  | None
  | RotateLeft
  | RotateRight
deriving DecidableEq

/-- `TryFrom<u8> for DimmerEvent` (`lib.rs` lines 54-64).  Note the
fallback arm of the source returns `Error::InvalidObjectId(v)`, not
`Error::InvalidDimmerEvent(v)`; the embedding reproduces that. -/
def DimmerEvent.try_from (v : Nat) : Except Error DimmerEvent :=
  match v with
  | 0x00 => .ok .None
  | 0x01 => .ok .RotateLeft
  | 0x02 => .ok .RotateRight
  | _ => .error (.InvalidObjectId v)

/-! ### Exact model of `f32` values

Every `f32` the decoder manipulates is a normal (or zero) binary32
number, so it is exactly `m * 2 ^ e` for a 24-bit mantissa.  `F32` holds
that pair in canonical form (mantissa odd, or `⟨0, 0⟩`), which makes
structural equality coincide with value equality.  Conversion from an
integer and multiplication round to nearest, ties to even, exactly as
binary32 does on the normal range; overflow and subnormals cannot occur
for the magnitudes produced by this decoder (between `2 ^ (-33)` and
`2 ^ 48`). -/

/-- Number of binary digits of `n` (0 for 0), with fuel; fuel 64 covers
all values that occur here. -/
def natBits : Nat → Nat → Nat
  | 0, _ => 0
  | fuel + 1, n => if n ≤ 1 then n else natBits fuel (n / 2) + 1

/-- Round `n / d` to the nearest integer, ties to even (`d > 0`). -/
def rtneDiv (n d : Nat) : Nat :=
  let q := n / d
  let r := n % d
  if 2 * r < d then q
  else if d < 2 * r then q + 1
  else if q % 2 = 0 then q else q + 1

/-- Strip factors of two from the mantissa, moving them into the
exponent, so that equal values get equal representations. -/
def oddify : Nat → Nat → Int → Nat × Int
  | 0, m, e => (m, e)
  | fuel + 1, m, e =>
    if m % 2 = 0 ∧ m ≠ 0 then oddify fuel (m / 2) (e + 1) else (m, e)

/-- Round the positive value `n * 2 ^ e` to a 24-bit mantissa and
canonicalize. -/
def f32normPos (n : Nat) (e : Int) : Nat × Int :=
  let b := natBits 64 n
  if b ≤ 24 then oddify 64 n e
  else oddify 64 (rtneDiv n (2 ^ (b - 24))) (e + (b - 24))

/-- A binary32 value, held exactly as `m * 2 ^ e` in canonical form. -/
structure F32 where
  m : Int
  e : Int
deriving DecidableEq

/-- Round the value `m * 2 ^ e` to the nearest binary32 value. -/
def f32round (m : Int) (e : Int) : F32 :=
  if m = 0 then ⟨0, 0⟩
  else
    let p := f32normPos m.natAbs e
    ⟨if m < 0 then -(p.1 : Int) else (p.1 : Int), p.2⟩

/-- The `as f32` integer-to-float cast (round to nearest, ties even). -/
def f32ofInt (v : Int) : F32 := f32round v 0

/-- Binary32 multiplication: the exact product, rounded back to 24 bits. -/
def f32mul (x y : F32) : F32 := f32round (x.m * y.m) (x.e + y.e)

/-- Smallest `k` (searched upward with fuel) such that
`den * 2 ^ 23 ≤ num * 2 ^ k`. -/
def litShift : Nat → Nat → Nat → Nat → Nat
  | 0, _, _, k => k
  | fuel + 1, num, den, k =>
    if den * 2 ^ 23 ≤ num * 2 ^ k then k else litShift fuel num den (k + 1)

/-- The binary32 value of the decimal literal `num / den` (used for the
scale-factor literals `0.001`, `0.01`, `0.1`, `0.35` of the catalog,
all of which are below 1). -/
def f32lit (num den : Nat) : F32 :=
  let k := litShift 64 num den 0
  f32round (rtneDiv (num * 2 ^ k) den) (-(k : Int))

/-- The real value of an `F32`. -/
def F32.toRat (x : F32) : ℚ := (x.m : ℚ) * (2 : ℚ) ^ x.e

/-! ### Byte-level helpers -/

/-- Little-endian value of a byte list (`from_le_bytes`). -/
def fromLeBytes : List Nat → Nat
  | [] => 0
  | b :: rest => b + 256 * fromLeBytes rest

/-- Two's-complement reinterpretation of a `width`-byte unsigned value
as a signed integer (`iN::from_le_bytes`, and the wrapping `as i64`
cast out of `u64`). -/
def toSigned (width v : Nat) : Int :=
  if v < 2 ^ (8 * width - 1) then (v : Int) else (v : Int) - 2 ^ (8 * width)

/-- The `ObjectValue` enum (`lib.rs` lines 328-337).  `Float` holds the
exact binary32 value; `Text` holds the UTF-8 bytes of the `String`. -/
inductive ObjectValue
  | Float (q : F32)
  | Int (i : Int)
  | Bool (b : Bool)
  | Raw (bytes : List Nat)
  | ButtonEvent (e : ButtonEvent)
  | DimmerEvent (e : DimmerEvent) (steps : Nat)
  | Text (bytes : List Nat)
deriving DecidableEq

/-- `Read::read_exact` on a cursor over a byte slice: take `n` bytes off
the front, or fail with `UnexpectedEof` when fewer remain. -/
def read_exact (n : Nat) (data : List Nat) : Except Error (List Nat × List Nat) :=
  if n ≤ data.length then .ok (data.take n, data.drop n)
  else .error (.IoError .UnexpectedEof)

/-- Shape of the `value_parsers!`-generated decoders and of `read_bool`:
read a fixed number of bytes, apply a pure conversion. -/
def read_value (n : Nat) (g : List Nat → ObjectValue) (data : List Nat) :
    Except Error (ObjectValue × List Nat) :=
  match read_exact n data with
  | .error e => .error e
  | .ok (bytes, rest) => .ok (g bytes, rest)

/-- Shape of the event decoders: read a fixed number of bytes, apply a
fallible conversion. -/
def read_event (n : Nat) (g : List Nat → Except Error ObjectValue) (data : List Nat) :
    Except Error (ObjectValue × List Nat) :=
  match read_exact n data with
  | .error e => .error e
  | .ok (bytes, rest) =>
    match g bytes with
    | .error e => .error e
    | .ok v => .ok (v, rest)

/-- Shape of `read_bytes` and `read_text`: read a one-byte length, then
that many bytes, then apply a fallible conversion. -/
def read_sized (g : List Nat → Except Error ObjectValue) (data : List Nat) :
    Except Error (ObjectValue × List Nat) :=
  match read_exact 1 data with
  | .error e => .error e
  | .ok (size, rest) =>
    match read_exact (size.headD 0) rest with
    | .error e => .error e
    | .ok (bytes, rest2) =>
      match g bytes with
      | .error e => .error e
      | .ok v => .ok (v, rest2)

/-! ### The `int_from` decoders (`value_parsers!` expansion, `lib.rs`
lines 79-102).  An entry `(name, rtype, rsize, btsize)` reads `btsize`
bytes (defaulting to `rsize`) into the low bytes of a zero-initialized
`rsize`-byte buffer, interprets the buffer as `rtype` little-endian,
then casts to `i64`. -/

def int_from.uint8 : List Nat → Except Error (ObjectValue × List Nat) :=
  read_value 1 (fun bytes => .Int (fromLeBytes bytes))

def int_from.sint8 : List Nat → Except Error (ObjectValue × List Nat) :=
  read_value 1 (fun bytes => .Int (toSigned 1 (fromLeBytes bytes)))

def int_from.uint16 : List Nat → Except Error (ObjectValue × List Nat) :=
  read_value 2 (fun bytes => .Int (fromLeBytes bytes))

def int_from.sint16 : List Nat → Except Error (ObjectValue × List Nat) :=
  read_value 2 (fun bytes => .Int (toSigned 2 (fromLeBytes bytes)))

/-- Source row `(uint24, u32, 4, 3)`: 3 bytes read, fourth buffer byte 0. -/
def int_from.uint24 : List Nat → Except Error (ObjectValue × List Nat) :=
  read_value 3 (fun bytes => .Int (fromLeBytes (bytes ++ [0])))

/-- Source row `(sint24, i32, 4, 3)`: 3 bytes read, fourth buffer byte 0,
then the buffer is interpreted as `i32` — so the sign bit examined is
bit 31 of the zero-padded buffer, never set by 3-byte data. -/
def int_from.sint24 : List Nat → Except Error (ObjectValue × List Nat) :=
  read_value 3 (fun bytes => .Int (toSigned 4 (fromLeBytes (bytes ++ [0]))))

def int_from.uint32 : List Nat → Except Error (ObjectValue × List Nat) :=
  read_value 4 (fun bytes => .Int (fromLeBytes bytes))

def int_from.sint32 : List Nat → Except Error (ObjectValue × List Nat) :=
  read_value 4 (fun bytes => .Int (toSigned 4 (fromLeBytes bytes)))

/-- Source row `(uint48, u64, 8, 6)`: 6 bytes read into an 8-byte buffer,
interpreted as `u64`, then cast `as i64` (wrapping, hence `toSigned 8`). -/
def int_from.uint48 : List Nat → Except Error (ObjectValue × List Nat) :=
  read_value 6 (fun bytes => .Int (toSigned 8 (fromLeBytes (bytes ++ [0, 0]))))

/-- Source row `(uint64, u64, 8, 6)`: the row declares `btsize` 6, so the
generated decoder reads 6 bytes, exactly like `uint48`. -/
def int_from.uint64 : List Nat → Except Error (ObjectValue × List Nat) :=
  read_value 6 (fun bytes => .Int (toSigned 8 (fromLeBytes (bytes ++ [0, 0]))))

/-! ### The `float_from` decoders (`lib.rs` lines 69-77): same reads as
`int_from`, but the interpreted integer is cast `as f32` and multiplied
by the `f32` scale factor. -/

def float_from.uint8 (data : List Nat) (factor : F32) : Except Error (ObjectValue × List Nat) :=
  read_value 1 (fun bytes => .Float (f32mul (f32ofInt (fromLeBytes bytes)) factor)) data

def float_from.sint8 (data : List Nat) (factor : F32) : Except Error (ObjectValue × List Nat) :=
  read_value 1 (fun bytes => .Float (f32mul (f32ofInt (toSigned 1 (fromLeBytes bytes))) factor)) data

def float_from.uint16 (data : List Nat) (factor : F32) : Except Error (ObjectValue × List Nat) :=
  read_value 2 (fun bytes => .Float (f32mul (f32ofInt (fromLeBytes bytes)) factor)) data

def float_from.sint16 (data : List Nat) (factor : F32) : Except Error (ObjectValue × List Nat) :=
  read_value 2 (fun bytes => .Float (f32mul (f32ofInt (toSigned 2 (fromLeBytes bytes))) factor)) data

def float_from.uint24 (data : List Nat) (factor : F32) : Except Error (ObjectValue × List Nat) :=
  read_value 3 (fun bytes => .Float (f32mul (f32ofInt (fromLeBytes (bytes ++ [0]))) factor)) data

def float_from.sint24 (data : List Nat) (factor : F32) : Except Error (ObjectValue × List Nat) :=
  read_value 3 (fun bytes => .Float (f32mul (f32ofInt (toSigned 4 (fromLeBytes (bytes ++ [0])))) factor)) data

def float_from.uint32 (data : List Nat) (factor : F32) : Except Error (ObjectValue × List Nat) :=
  read_value 4 (fun bytes => .Float (f32mul (f32ofInt (fromLeBytes bytes)) factor)) data

def float_from.sint32 (data : List Nat) (factor : F32) : Except Error (ObjectValue × List Nat) :=
  read_value 4 (fun bytes => .Float (f32mul (f32ofInt (toSigned 4 (fromLeBytes bytes))) factor)) data

def float_from.uint48 (data : List Nat) (factor : F32) : Except Error (ObjectValue × List Nat) :=
  read_value 6 (fun bytes => .Float (f32mul (f32ofInt (fromLeBytes (bytes ++ [0, 0]))) factor)) data

def float_from.uint64 (data : List Nat) (factor : F32) : Except Error (ObjectValue × List Nat) :=
  read_value 6 (fun bytes => .Float (f32mul (f32ofInt (fromLeBytes (bytes ++ [0, 0]))) factor)) data

/-- `read_bool` (`lib.rs` lines 104-108): one byte, `true` iff it is 0. -/
def read_bool : List Nat → Except Error (ObjectValue × List Nat) :=
  read_value 1 (fun bytes => .Bool (fromLeBytes bytes == 0))

/-- UTF-8 validity of a byte list, as checked by `String::from_utf8`
(the standard table: C0/C1 and lone continuation bytes rejected,
overlong forms, surrogates, and values above U+10FFFF rejected). -/
def utf8Valid : List Nat → Bool
  | [] => true
  | b :: rest =>
    if b ≤ 0x7F then utf8Valid rest else
    if b < 0xC2 then false else
    match rest with
    | [] => false
    | c1 :: rest1 =>
      if b ≤ 0xDF then decide (0x80 ≤ c1 ∧ c1 ≤ 0xBF) && utf8Valid rest1 else
      match rest1 with
      | [] => false
      | c2 :: rest2 =>
        if b = 0xE0 then
          decide (0xA0 ≤ c1 ∧ c1 ≤ 0xBF) && decide (0x80 ≤ c2 ∧ c2 ≤ 0xBF) && utf8Valid rest2
        else if b ≤ 0xEC then
          decide (0x80 ≤ c1 ∧ c1 ≤ 0xBF) && decide (0x80 ≤ c2 ∧ c2 ≤ 0xBF) && utf8Valid rest2
        else if b = 0xED then
          decide (0x80 ≤ c1 ∧ c1 ≤ 0x9F) && decide (0x80 ≤ c2 ∧ c2 ≤ 0xBF) && utf8Valid rest2
        else if b ≤ 0xEF then
          decide (0x80 ≤ c1 ∧ c1 ≤ 0xBF) && decide (0x80 ≤ c2 ∧ c2 ≤ 0xBF) && utf8Valid rest2
        else
          match rest2 with
          | [] => false
          | c3 :: rest3 =>
            if b = 0xF0 then
              decide (0x90 ≤ c1 ∧ c1 ≤ 0xBF) && decide (0x80 ≤ c2 ∧ c2 ≤ 0xBF) &&
                decide (0x80 ≤ c3 ∧ c3 ≤ 0xBF) && utf8Valid rest3
            else if b ≤ 0xF3 then
              decide (0x80 ≤ c1 ∧ c1 ≤ 0xBF) && decide (0x80 ≤ c2 ∧ c2 ≤ 0xBF) &&
                decide (0x80 ≤ c3 ∧ c3 ≤ 0xBF) && utf8Valid rest3
            else if b = 0xF4 then
              decide (0x80 ≤ c1 ∧ c1 ≤ 0x8F) && decide (0x80 ≤ c2 ∧ c2 ≤ 0xBF) &&
                decide (0x80 ≤ c3 ∧ c3 ≤ 0xBF) && utf8Valid rest3
            else false

/-- `read_bytes` (`lib.rs` lines 110-116): a one-byte length, then that
many raw bytes. -/
def read_bytes : List Nat → Except Error (ObjectValue × List Nat) :=
  read_sized (fun bytes => .ok (.Raw bytes))

/-- `read_text` (`lib.rs` lines 118-126): like `read_bytes`, but the
bytes must be valid UTF-8, else `InvalidTextEncoding`. -/
def read_text : List Nat → Except Error (ObjectValue × List Nat) :=
  read_sized (fun bytes =>
    if utf8Valid bytes then .ok (.Text bytes) else .error .InvalidTextEncoding)

/-- `read_button_event` (`lib.rs` lines 128-132): one byte through
`ButtonEvent::try_from`. -/
def read_button_event : List Nat → Except Error (ObjectValue × List Nat) :=
  read_event 1 (fun bytes =>
    match ButtonEvent.try_from (bytes.headD 0) with
    | .error e => .error e
    | .ok e => .ok (.ButtonEvent e))

/-- `read_dimmer_event` (`lib.rs` lines 134-138): two bytes, the first
through `DimmerEvent::try_from`, the second kept raw. -/
def read_dimmer_event : List Nat → Except Error (ObjectValue × List Nat) :=
  read_event 2 (fun bytes =>
    match DimmerEvent.try_from (bytes.headD 0) with
    | .error e => .error e
    | .ok e => .ok (.DimmerEvent e (bytes.getD 1 0)))

/-- The `ObjectId` enum (`lib.rs` lines 176-326): the full BTHome v2
identifier catalog of this implementation. -/
inductive ObjectId
  | Acceleration
  | Battery
  | CO2
  | Conductivity
  | CountU8
  | CountU16
  | CountU32
  | CountI8
  | CountI16
  | CountI32
  | CurrentU16
  | CurrentI16
  | Dewpoint
  | DistanceMM
  | DistanceM
  | Duration
  | EnergyU32
  | EngergyU24
  | GasU24
  | GasU32
  | Gyroscope
  | HumidityU16
  | HumidityU8
  | Illuminance
  | MassKg
  | MassLb
  | MoistureSmall
  | MoistureLarge
  | PM2d5
  | PM10
  | PowerSmall
  | PowerLarge
  | Pressure
  | Raw
  | Rotation
  | Speed
  | Temperature1
  | Temperature2
  | Temperature3
  | Temperature4
  | Text
  | Timestamp
  | Tvoc
  | VoltageSmall
  | VoltageLarge
  | Volume1
  | Volume2
  | Volume3
  | VolumeStorage
  | VolumeFlowRate
  | UVIndex
  | Water
  | BatteryLow
  | BatteryCharging
  | CarbonMonoxideDetected
  | Cold
  | Connectivity
  | DoorOpen
  | GarageDoorOpen
  | GasDetected
  | GenericBoolean
  | Heat
  | LightDetected
  | LockUnlocked
  | MoistureDetected
  | MotionDetected
  | MovementDetected
  | OccupancyDetected
  | IsOpen
  | PluggedIn
  | PowerOn
  | PresenceAtHome
  | ProblemDetected
  | IsRunning
  | IsSafe
  | SmokeDetected
  | SoundDetected
  | TamperDetected
  | VibrationDetected
  | WindowOpen
  | Button
  | Dimmer
  | DeviceTypeId
  | FirmwareVersionLarge
  | FirmwareVersionSmall
  | PacketId
deriving DecidableEq

/-- `TryFrom<u8> for ObjectId`, generated by `bthome_objects!`
(`lib.rs` lines 150-159): match the byte against every discriminant,
otherwise `InvalidObjectId`. -/
def ObjectId.try_from (v : Nat) : Except Error ObjectId :=
  match v with
  | 0x51 => .ok .Acceleration
  | 0x01 => .ok .Battery
  | 0x12 => .ok .CO2
  | 0x56 => .ok .Conductivity
  | 0x09 => .ok .CountU8
  | 0x3D => .ok .CountU16
  | 0x3E => .ok .CountU32
  | 0x59 => .ok .CountI8
  | 0x5A => .ok .CountI16
  | 0x5B => .ok .CountI32
  | 0x43 => .ok .CurrentU16
  | 0x5D => .ok .CurrentI16
  | 0x08 => .ok .Dewpoint
  | 0x40 => .ok .DistanceMM
  | 0x41 => .ok .DistanceM
  | 0x42 => .ok .Duration
  | 0x4D => .ok .EnergyU32
  | 0x0A => .ok .EngergyU24
  | 0x4B => .ok .GasU24
  | 0x4C => .ok .GasU32
  | 0x52 => .ok .Gyroscope
  | 0x03 => .ok .HumidityU16
  | 0x2E => .ok .HumidityU8
  | 0x05 => .ok .Illuminance
  | 0x06 => .ok .MassKg
  | 0x07 => .ok .MassLb
  | 0x14 => .ok .MoistureSmall
  | 0x2F => .ok .MoistureLarge
  | 0x0D => .ok .PM2d5
  | 0x0E => .ok .PM10
  | 0x0B => .ok .PowerSmall
  | 0x5C => .ok .PowerLarge
  | 0x04 => .ok .Pressure
  | 0x54 => .ok .Raw
  | 0x3F => .ok .Rotation
  | 0x44 => .ok .Speed
  | 0x57 => .ok .Temperature1
  | 0x58 => .ok .Temperature2
  | 0x45 => .ok .Temperature3
  | 0x02 => .ok .Temperature4
  | 0x53 => .ok .Text
  | 0x50 => .ok .Timestamp
  | 0x13 => .ok .Tvoc
  | 0x0C => .ok .VoltageSmall
  | 0x4A => .ok .VoltageLarge
  | 0x4E => .ok .Volume1
  | 0x47 => .ok .Volume2
  | 0x48 => .ok .Volume3
  | 0x55 => .ok .VolumeStorage
  | 0x49 => .ok .VolumeFlowRate
  | 0x46 => .ok .UVIndex
  | 0x4F => .ok .Water
  | 0x15 => .ok .BatteryLow
  | 0x16 => .ok .BatteryCharging
  | 0x17 => .ok .CarbonMonoxideDetected
  | 0x18 => .ok .Cold
  | 0x19 => .ok .Connectivity
  | 0x1A => .ok .DoorOpen
  | 0x1B => .ok .GarageDoorOpen
  | 0x1C => .ok .GasDetected
  | 0x0F => .ok .GenericBoolean
  | 0x1D => .ok .Heat
  | 0x1E => .ok .LightDetected
  | 0x1F => .ok .LockUnlocked
  | 0x20 => .ok .MoistureDetected
  | 0x21 => .ok .MotionDetected
  | 0x22 => .ok .MovementDetected
  | 0x23 => .ok .OccupancyDetected
  | 0x11 => .ok .IsOpen
  | 0x24 => .ok .PluggedIn
  | 0x10 => .ok .PowerOn
  | 0x25 => .ok .PresenceAtHome
  | 0x26 => .ok .ProblemDetected
  | 0x27 => .ok .IsRunning
  | 0x28 => .ok .IsSafe
  | 0x29 => .ok .SmokeDetected
  | 0x2A => .ok .SoundDetected
  | 0x2B => .ok .TamperDetected
  | 0x2C => .ok .VibrationDetected
  | 0x2D => .ok .WindowOpen
  | 0x3A => .ok .Button
  | 0x3C => .ok .Dimmer
  | 0xF0 => .ok .DeviceTypeId
  | 0xF1 => .ok .FirmwareVersionLarge
  | 0xF2 => .ok .FirmwareVersionSmall
  | 0x00 => .ok .PacketId
  | _ => .error (.InvalidObjectId v)

/-- The `Object` struct (`lib.rs` lines 339-343). -/
structure Object where
  object_id : ObjectId
  value : ObjectValue
deriving DecidableEq

/-- The per-identifier decoder dispatch of `value_from_raw`
(`lib.rs` lines 161-172 applied to the table at lines 176-326): each
identifier invokes its row's conversion with its row's scale factor. -/
def value_conv (object_id : ObjectId) (data : List Nat) :
    Except Error (ObjectValue × List Nat) :=
  match object_id with
  | .Acceleration => float_from.uint16 data (f32lit 1 1000)
  | .Battery => int_from.uint8 data
  | .CO2 => int_from.uint16 data
  | .Conductivity => int_from.uint16 data
  | .CountU8 => int_from.uint8 data
  | .CountU16 => int_from.uint16 data
  | .CountU32 => int_from.uint32 data
  | .CountI8 => int_from.sint8 data
  | .CountI16 => int_from.sint16 data
  | .CountI32 => int_from.sint32 data
  | .CurrentU16 => float_from.uint16 data (f32lit 1 1000)
  | .CurrentI16 => float_from.sint16 data (f32lit 1 1000)
  | .Dewpoint => float_from.sint16 data (f32lit 1 100)
  | .DistanceMM => int_from.uint16 data
  | .DistanceM => float_from.uint16 data (f32lit 1 10)
  | .Duration => float_from.uint24 data (f32lit 1 1000)
  | .EnergyU32 => float_from.uint32 data (f32lit 1 1000)
  | .EngergyU24 => float_from.uint24 data (f32lit 1 1000)
  | .GasU24 => float_from.uint24 data (f32lit 1 1000)
  | .GasU32 => float_from.uint32 data (f32lit 1 1000)
  | .Gyroscope => float_from.uint16 data (f32lit 1 1000)
  | .HumidityU16 => float_from.uint16 data (f32lit 1 100)
  | .HumidityU8 => int_from.uint8 data
  | .Illuminance => float_from.uint24 data (f32lit 1 100)
  | .MassKg => float_from.uint16 data (f32lit 1 100)
  | .MassLb => float_from.uint16 data (f32lit 1 100)
  | .MoistureSmall => float_from.uint16 data (f32lit 1 100)
  | .MoistureLarge => int_from.uint8 data
  | .PM2d5 => int_from.uint16 data
  | .PM10 => int_from.uint16 data
  | .PowerSmall => float_from.uint24 data (f32lit 1 100)
  | .PowerLarge => float_from.sint32 data (f32lit 1 100)
  | .Pressure => float_from.uint24 data (f32lit 1 100)
  | .Raw => read_bytes data
  | .Rotation => float_from.sint16 data (f32lit 1 10)
  | .Speed => float_from.uint16 data (f32lit 1 100)
  | .Temperature1 => int_from.sint8 data
  | .Temperature2 => float_from.sint8 data (f32lit 35 100)
  | .Temperature3 => float_from.sint16 data (f32lit 1 10)
  | .Temperature4 => float_from.sint16 data (f32lit 1 100)
  | .Text => read_text data
  | .Timestamp => int_from.uint48 data
  | .Tvoc => int_from.uint16 data
  | .VoltageSmall => float_from.uint16 data (f32lit 1 1000)
  | .VoltageLarge => float_from.uint16 data (f32lit 1 10)
  | .Volume1 => float_from.uint32 data (f32lit 1 1000)
  | .Volume2 => float_from.uint16 data (f32lit 1 10)
  | .Volume3 => int_from.uint16 data
  | .VolumeStorage => float_from.uint32 data (f32lit 1 1000)
  | .VolumeFlowRate => float_from.uint16 data (f32lit 1 1000)
  | .UVIndex => float_from.uint8 data (f32lit 1 10)
  | .Water => float_from.uint32 data (f32lit 1 1000)
  | .BatteryLow => read_bool data
  | .BatteryCharging => read_bool data
  | .CarbonMonoxideDetected => read_bool data
  | .Cold => read_bool data
  | .Connectivity => read_bool data
  | .DoorOpen => read_bool data
  | .GarageDoorOpen => read_bool data
  | .GasDetected => read_bool data
  | .GenericBoolean => read_bool data
  | .Heat => read_bool data
  | .LightDetected => read_bool data
  | .LockUnlocked => read_bool data
  | .MoistureDetected => read_bool data
  | .MotionDetected => read_bool data
  | .MovementDetected => read_bool data
  | .OccupancyDetected => read_bool data
  | .IsOpen => read_bool data
  | .PluggedIn => read_bool data
  | .PowerOn => read_bool data
  | .PresenceAtHome => read_bool data
  | .ProblemDetected => read_bool data
  | .IsRunning => read_bool data
  | .IsSafe => read_bool data
  | .SmokeDetected => read_bool data
  | .SoundDetected => read_bool data
  | .TamperDetected => read_bool data
  | .VibrationDetected => read_bool data
  | .WindowOpen => read_bool data
  | .Button => read_button_event data
  | .Dimmer => read_dimmer_event data
  | .DeviceTypeId => int_from.uint16 data
  | .FirmwareVersionLarge => int_from.uint32 data
  | .FirmwareVersionSmall => int_from.uint64 data
  | .PacketId => int_from.uint8 data

/-- `value_from_raw` (`lib.rs` lines 161-172): run the identifier's
decoder and pair the identifier with the decoded value. -/
def value_from_raw (object_id : ObjectId) (data : List Nat) :
    Except Error (Object × List Nat) :=
  match value_conv object_id data with
  | .error e => .error e
  | .ok (value, rest) => .ok ({ object_id := object_id, value := value }, rest)

/-- The `ServiceData` struct (`lib.rs` lines 345-351). -/
structure ServiceData where
  encrypted : Bool
  trigger_based : Bool
  version : Nat
  objects : List Object
deriving DecidableEq

/-- The object loop of `parse_service_data` (`lib.rs` lines 369-383):
reading the next identifier byte at end of input breaks the loop;
otherwise the identifier is resolved and its value decoded, and any
error aborts the whole parse.  The loop is driven by a fuel argument (a
modelling artifact of the shallow embedding); since every iteration
consumes the identifier byte, fuel equal to the input length is always
enough, and the fuel-exhaustion branch is unreachable from
`parse_service_data`. -/
def parseObjects : Nat → List Nat → Except Error (List Object)
  | _, [] => .ok []
  | 0, _ :: _ => .error (.IoError .UnexpectedEof)
  | fuel + 1, b :: rest =>
    match ObjectId.try_from b with
    | .error e => .error e
    | .ok object_id =>
      match value_from_raw object_id rest with
      | .error e => .error e
      | .ok (obj, rest2) =>
        match parseObjects fuel rest2 with
        | .error e => .error e
        | .ok objs => .ok (obj :: objs)

/-- `parse_service_data` (`lib.rs` lines 359-384).  The header byte is
read first (`UnexpectedEof` if absent); its bits populate the flags —
including the source's `head[0] & 0b00000100 == 1` comparison for
`trigger_based`, reproduced verbatim — then the object loop runs on the
remaining bytes. -/
def parse_service_data (data : List Nat) : Except Error ServiceData :=
  match read_exact 1 data with
  | .error e => .error e
  | .ok (head, rest) =>
    match parseObjects rest.length rest with
    | .error e => .error e
    | .ok objs =>
      .ok { encrypted := head.headD 0 &&& 0b00000001 == 1
            trigger_based := head.headD 0 &&& 0b00000100 == 1
            version := head.headD 0 >>> 5
            objects := objs }

/-- The length-bound invariant of decoded values: `Raw` and `Text`
payloads carry at most 255 bytes. -/
def sizeInv (v : ObjectValue) : Prop :=
  (∀ bs, v = .Raw bs → bs.length ≤ 255) ∧ (∀ bs, v = .Text bs → bs.length ≤ 255)

/-! ### Support lemmas: how the readers behave under input extension,
truncation of the final byte, and on empty input. -/

theorem F32.toRat_mk (m e : Int) : F32.toRat ⟨m, e⟩ = (m : ℚ) * (2 : ℚ) ^ e := rfl

theorem read_exact_eq_ok {n : Nat} {data bs rest : List Nat}
    (h : read_exact n data = .ok (bs, rest)) :
    n ≤ data.length ∧ bs = data.take n ∧ rest = data.drop n := by
  unfold read_exact at h
  split at h
  · simp only [Except.ok.injEq, Prod.mk.injEq] at h
    exact ⟨by assumption, h.1.symm, h.2.symm⟩
  · cases h

theorem read_exact_ext {n : Nat} {data bs rest ext : List Nat}
    (h : read_exact n data = .ok (bs, rest)) :
    read_exact n (data ++ ext) = .ok (bs, rest ++ ext) := by
  obtain ⟨hle, hbs, hrest⟩ := read_exact_eq_ok h
  subst hbs hrest
  unfold read_exact
  rw [if_pos (by simp; omega)]
  rw [List.take_append_of_le_length hle, List.drop_append_of_le_length hle]

theorem read_exact_dropLast_nil {n : Nat} {data bs : List Nat} (hn : 1 ≤ n)
    (h : read_exact n data = .ok (bs, [])) :
    read_exact n data.dropLast = .error (.IoError .UnexpectedEof) := by
  obtain ⟨hle, hbs, hrest⟩ := read_exact_eq_ok h
  have hlen : data.length ≤ n := by
    by_contra hc
    have : data.drop n ≠ [] := by
      apply List.ne_nil_of_length_pos
      rw [List.length_drop]
      omega
    exact this hrest.symm
  unfold read_exact
  rw [if_neg]
  rw [List.length_dropLast]
  omega

theorem read_exact_dropLast_ne {n : Nat} {data bs rest : List Nat} (hne : rest ≠ [])
    (h : read_exact n data = .ok (bs, rest)) :
    read_exact n data.dropLast = .ok (bs, rest.dropLast) := by
  obtain ⟨hle, hbs, hrest⟩ := read_exact_eq_ok h
  subst hbs hrest
  have hlt : n < data.length := by
    by_contra hc
    apply hne
    rw [List.drop_eq_nil_iff]
    omega
  unfold read_exact
  rw [if_pos (by rw [List.length_dropLast]; omega)]
  have h1 : data.dropLast.take n = data.take n := by
    rw [List.dropLast_eq_take, List.take_take]
    congr 1
    omega
  have h2 : data.dropLast.drop n = (data.drop n).dropLast := by
    rw [List.dropLast_eq_take, List.dropLast_eq_take, List.drop_take, List.length_drop]
    congr 1
    omega
  rw [h1, h2]

theorem read_exact_empty {n : Nat} (hn : 1 ≤ n) :
    read_exact n ([] : List Nat) = .error (.IoError .UnexpectedEof) := by
  unfold read_exact
  rw [if_neg]
  simp
  omega

theorem read_exact_suffix {n : Nat} {data bs rest : List Nat}
    (h : read_exact n data = .ok (bs, rest)) : rest <:+ data := by
  obtain ⟨-, -, hrest⟩ := read_exact_eq_ok h
  rw [hrest]
  exact List.drop_suffix n data

theorem read_value_eq_ok {n : Nat} {g : List Nat → ObjectValue} {data v rest} :
    read_value n g data = .ok (v, rest) ↔
      ∃ bytes, read_exact n data = .ok (bytes, rest) ∧ v = g bytes := by
  constructor
  · intro h
    unfold read_value at h
    split at h
    · cases h
    · next bytes r heq =>
      simp only [Except.ok.injEq, Prod.mk.injEq] at h
      exact ⟨bytes, by rw [heq, h.2], h.1.symm⟩
  · rintro ⟨bytes, hre, hv⟩
    unfold read_value
    split
    · next heq => rw [hre] at heq; cases heq
    · next bytes2 r2 heq =>
      rw [hre] at heq
      simp only [Except.ok.injEq, Prod.mk.injEq] at heq
      rw [hv, heq.1, heq.2]

theorem read_value_err {n : Nat} {g : List Nat → ObjectValue} {data e}
    (h : read_exact n data = .error e) : read_value n g data = .error e := by
  unfold read_value
  split
  · next heq => rw [h] at heq; cases heq; rfl
  · next bytes r heq => rw [h] at heq; cases heq

theorem read_value_ext {n : Nat} {g : List Nat → ObjectValue} {data v rest ext}
    (h : read_value n g data = .ok (v, rest)) :
    read_value n g (data ++ ext) = .ok (v, rest ++ ext) := by
  obtain ⟨bytes, hre, hv⟩ := read_value_eq_ok.mp h
  exact read_value_eq_ok.mpr ⟨bytes, read_exact_ext hre, hv⟩

theorem read_value_dropLast_nil {n : Nat} {g : List Nat → ObjectValue} {data v}
    (hn : 1 ≤ n) (h : read_value n g data = .ok (v, [])) :
    read_value n g data.dropLast = .error (.IoError .UnexpectedEof) := by
  obtain ⟨bytes, hre, -⟩ := read_value_eq_ok.mp h
  exact read_value_err (read_exact_dropLast_nil hn hre)

theorem read_value_dropLast_ne {n : Nat} {g : List Nat → ObjectValue} {data v rest}
    (hne : rest ≠ []) (h : read_value n g data = .ok (v, rest)) :
    read_value n g data.dropLast = .ok (v, rest.dropLast) := by
  obtain ⟨bytes, hre, hv⟩ := read_value_eq_ok.mp h
  exact read_value_eq_ok.mpr ⟨bytes, read_exact_dropLast_ne hne hre, hv⟩

theorem read_value_empty {n : Nat} {g : List Nat → ObjectValue} (hn : 1 ≤ n) :
    read_value n g [] = .error (.IoError .UnexpectedEof) :=
  read_value_err (read_exact_empty hn)

theorem read_value_suffix {n : Nat} {g : List Nat → ObjectValue} {data v rest}
    (h : read_value n g data = .ok (v, rest)) : rest <:+ data := by
  obtain ⟨bytes, hre, -⟩ := read_value_eq_ok.mp h
  exact read_exact_suffix hre

theorem read_value_shape {n : Nat} {g : List Nat → ObjectValue} {data v rest}
    (h : read_value n g data = .ok (v, rest)) : ∃ bs, v = g bs := by
  obtain ⟨bytes, -, hv⟩ := read_value_eq_ok.mp h
  exact ⟨bytes, hv⟩

theorem read_event_eq_ok {n : Nat} {g : List Nat → Except Error ObjectValue} {data v rest} :
    read_event n g data = .ok (v, rest) ↔
      ∃ bytes, read_exact n data = .ok (bytes, rest) ∧ g bytes = .ok v := by
  constructor
  · intro h
    unfold read_event at h
    split at h
    · cases h
    · next bytes r heq =>
      split at h
      · cases h
      · next v2 heq2 =>
        simp only [Except.ok.injEq, Prod.mk.injEq] at h
        exact ⟨bytes, by rw [heq, h.2], by rw [heq2, h.1]⟩
  · rintro ⟨bytes, hre, hg⟩
    unfold read_event
    split
    · next heq => rw [hre] at heq; cases heq
    · next bytes2 r2 heq =>
      rw [hre] at heq
      simp only [Except.ok.injEq, Prod.mk.injEq] at heq
      obtain ⟨hb, hr⟩ := heq
      subst hb
      subst hr
      split
      · next heq2 => rw [hg] at heq2; cases heq2
      · next v2 heq2 =>
        rw [hg] at heq2
        cases heq2
        rfl

theorem read_event_err {n : Nat} {g : List Nat → Except Error ObjectValue} {data e}
    (h : read_exact n data = .error e) : read_event n g data = .error e := by
  unfold read_event
  split
  · next heq => rw [h] at heq; cases heq; rfl
  · next bytes r heq => rw [h] at heq; cases heq

theorem read_event_ext {n : Nat} {g : List Nat → Except Error ObjectValue} {data v rest ext}
    (h : read_event n g data = .ok (v, rest)) :
    read_event n g (data ++ ext) = .ok (v, rest ++ ext) := by
  obtain ⟨bytes, hre, hg⟩ := read_event_eq_ok.mp h
  exact read_event_eq_ok.mpr ⟨bytes, read_exact_ext hre, hg⟩

theorem read_event_dropLast_nil {n : Nat} {g : List Nat → Except Error ObjectValue} {data v}
    (hn : 1 ≤ n) (h : read_event n g data = .ok (v, [])) :
    read_event n g data.dropLast = .error (.IoError .UnexpectedEof) := by
  obtain ⟨bytes, hre, -⟩ := read_event_eq_ok.mp h
  exact read_event_err (read_exact_dropLast_nil hn hre)

theorem read_event_dropLast_ne {n : Nat} {g : List Nat → Except Error ObjectValue} {data v rest}
    (hne : rest ≠ []) (h : read_event n g data = .ok (v, rest)) :
    read_event n g data.dropLast = .ok (v, rest.dropLast) := by
  obtain ⟨bytes, hre, hg⟩ := read_event_eq_ok.mp h
  exact read_event_eq_ok.mpr ⟨bytes, read_exact_dropLast_ne hne hre, hg⟩

theorem read_event_empty {n : Nat} {g : List Nat → Except Error ObjectValue} (hn : 1 ≤ n) :
    read_event n g [] = .error (.IoError .UnexpectedEof) :=
  read_event_err (read_exact_empty hn)

theorem read_event_suffix {n : Nat} {g : List Nat → Except Error ObjectValue} {data v rest}
    (h : read_event n g data = .ok (v, rest)) : rest <:+ data := by
  obtain ⟨bytes, hre, -⟩ := read_event_eq_ok.mp h
  exact read_exact_suffix hre

theorem read_event_shape {n : Nat} {g : List Nat → Except Error ObjectValue} {data v rest}
    (h : read_event n g data = .ok (v, rest)) : ∃ bs, g bs = .ok v := by
  obtain ⟨bytes, -, hg⟩ := read_event_eq_ok.mp h
  exact ⟨bytes, hg⟩

theorem read_sized_eq_ok {g : List Nat → Except Error ObjectValue} {data v rest} :
    read_sized g data = .ok (v, rest) ↔
      ∃ size r1 bytes, read_exact 1 data = .ok (size, r1) ∧
        read_exact (size.headD 0) r1 = .ok (bytes, rest) ∧ g bytes = .ok v := by
  constructor
  · intro h
    unfold read_sized at h
    split at h
    · cases h
    · next size r1 heq1 =>
      split at h
      · cases h
      · next bytes r2 heq2 =>
        split at h
        · cases h
        · next v2 heq3 =>
          simp only [Except.ok.injEq, Prod.mk.injEq] at h
          exact ⟨size, r1, bytes, heq1, by rw [heq2, h.2], by rw [heq3, h.1]⟩
  · rintro ⟨size, r1, bytes, h1, h2, h3⟩
    unfold read_sized
    split
    · next heq => rw [h1] at heq; cases heq
    · next size2 r12 heq =>
      rw [h1] at heq
      simp only [Except.ok.injEq, Prod.mk.injEq] at heq
      obtain ⟨hs, hr⟩ := heq
      subst hs
      subst hr
      split
      · next heq2 => rw [h2] at heq2; cases heq2
      · next bytes2 r22 heq2 =>
        rw [h2] at heq2
        simp only [Except.ok.injEq, Prod.mk.injEq] at heq2
        obtain ⟨hb, hr2⟩ := heq2
        subst hb
        subst hr2
        split
        · next heq3 => rw [h3] at heq3; cases heq3
        · next v2 heq3 =>
          rw [h3] at heq3
          cases heq3
          rfl

theorem read_sized_err1 {g : List Nat → Except Error ObjectValue} {data e}
    (h : read_exact 1 data = .error e) : read_sized g data = .error e := by
  unfold read_sized
  split
  · next heq => rw [h] at heq; cases heq; rfl
  · next size r1 heq => rw [h] at heq; cases heq

theorem read_sized_err2 {g : List Nat → Except Error ObjectValue} {data size r1 e}
    (h1 : read_exact 1 data = .ok (size, r1))
    (h2 : read_exact (size.headD 0) r1 = .error e) : read_sized g data = .error e := by
  unfold read_sized
  split
  · next heq => rw [h1] at heq; cases heq
  · next size2 r12 heq =>
    rw [h1] at heq
    simp only [Except.ok.injEq, Prod.mk.injEq] at heq
    obtain ⟨hs, hr⟩ := heq
    subst hs
    subst hr
    split
    · next heq2 => rw [h2] at heq2; cases heq2; rfl
    · next bytes r2 heq2 => rw [h2] at heq2; cases heq2

theorem read_sized_ext {g : List Nat → Except Error ObjectValue} {data v rest ext}
    (h : read_sized g data = .ok (v, rest)) :
    read_sized g (data ++ ext) = .ok (v, rest ++ ext) := by
  obtain ⟨size, r1, bytes, h1, h2, h3⟩ := read_sized_eq_ok.mp h
  exact read_sized_eq_ok.mpr ⟨size, r1 ++ ext, bytes, read_exact_ext h1, read_exact_ext h2, h3⟩

theorem read_sized_dropLast_nil {g : List Nat → Except Error ObjectValue} {data v}
    (h : read_sized g data = .ok (v, [])) :
    read_sized g data.dropLast = .error (.IoError .UnexpectedEof) := by
  obtain ⟨size, r1, bytes, h1, h2, h3⟩ := read_sized_eq_ok.mp h
  by_cases hr1 : r1 = []
  · subst hr1
    exact read_sized_err1 (read_exact_dropLast_nil (by omega) h1)
  · have hn2 : 1 ≤ size.headD 0 := by
      by_contra hc
      push_neg at hc
      obtain ⟨-, -, hr2⟩ := read_exact_eq_ok h2
      have hz : size.headD 0 = 0 := by omega
      rw [hz] at hr2
      exact hr1 hr2.symm
    exact read_sized_err2 (read_exact_dropLast_ne hr1 h1) (read_exact_dropLast_nil hn2 h2)

theorem read_sized_dropLast_ne {g : List Nat → Except Error ObjectValue} {data v rest}
    (hne : rest ≠ []) (h : read_sized g data = .ok (v, rest)) :
    read_sized g data.dropLast = .ok (v, rest.dropLast) := by
  obtain ⟨size, r1, bytes, h1, h2, h3⟩ := read_sized_eq_ok.mp h
  have hr1 : r1 ≠ [] := by
    intro hnil
    apply hne
    have hsuf := read_exact_suffix h2
    rw [hnil] at hsuf
    exact List.suffix_nil.mp hsuf
  exact read_sized_eq_ok.mpr
    ⟨size, r1.dropLast, bytes, read_exact_dropLast_ne hr1 h1, read_exact_dropLast_ne hne h2, h3⟩

theorem read_sized_empty {g : List Nat → Except Error ObjectValue} :
    read_sized g [] = .error (.IoError .UnexpectedEof) :=
  read_sized_err1 (read_exact_empty (by omega))

theorem read_sized_suffix {g : List Nat → Except Error ObjectValue} {data v rest}
    (h : read_sized g data = .ok (v, rest)) : rest <:+ data := by
  obtain ⟨size, r1, bytes, h1, h2, h3⟩ := read_sized_eq_ok.mp h
  exact (read_exact_suffix h2).trans (read_exact_suffix h1)

theorem read_sized_shape {g : List Nat → Except Error ObjectValue} {data v rest}
    (h : read_sized g data = .ok (v, rest)) :
    ∃ bs, g bs = .ok v ∧ ((∀ x ∈ data, x < 256) → bs.length ≤ 255) := by
  obtain ⟨size, r1, bytes, h1, h2, h3⟩ := read_sized_eq_ok.mp h
  refine ⟨bytes, h3, fun hb => ?_⟩
  obtain ⟨hle1, hsize, hr1⟩ := read_exact_eq_ok h1
  obtain ⟨-, hbytes, -⟩ := read_exact_eq_ok h2
  obtain ⟨d0, drest, hd⟩ : ∃ d0 drest, data = d0 :: drest := by
    cases data with
    | nil => simp at hle1
    | cons d0 drest => exact ⟨d0, drest, rfl⟩
  subst hd
  have hd0 : d0 < 256 := hb d0 (by simp)
  have hsz : size.headD 0 = d0 := by rw [hsize]; rfl
  rw [hbytes, hsz]
  calc (r1.take d0).length ≤ d0 := by rw [List.length_take]; omega
    _ ≤ 255 := by omega

/-! ### Catalog-wide properties of the per-identifier decoders -/

theorem value_conv_empty (object_id : ObjectId) :
    value_conv object_id [] = .error (.IoError .UnexpectedEof) := by
  cases object_id <;>
    simp only [value_conv, int_from.uint8, int_from.sint8, int_from.uint16,
      int_from.sint16, int_from.uint24, int_from.sint24, int_from.uint32, int_from.sint32,
      int_from.uint48, int_from.uint64, float_from.uint8, float_from.sint8, float_from.uint16,
      float_from.sint16, float_from.uint24, float_from.sint24, float_from.uint32,
      float_from.sint32, float_from.uint48, float_from.uint64, read_bool, read_bytes,
      read_text, read_button_event, read_dimmer_event] <;>
    first
      | exact read_value_empty (by omega)
      | exact read_event_empty (by omega)
      | exact read_sized_empty

theorem value_conv_ext {object_id data v rest ext}
    (h : value_conv object_id data = .ok (v, rest)) :
    value_conv object_id (data ++ ext) = .ok (v, rest ++ ext) := by
  cases object_id <;>
    simp only [value_conv, int_from.uint8, int_from.sint8, int_from.uint16,
      int_from.sint16, int_from.uint24, int_from.sint24, int_from.uint32, int_from.sint32,
      int_from.uint48, int_from.uint64, float_from.uint8, float_from.sint8, float_from.uint16,
      float_from.sint16, float_from.uint24, float_from.sint24, float_from.uint32,
      float_from.sint32, float_from.uint48, float_from.uint64, read_bool, read_bytes,
      read_text, read_button_event, read_dimmer_event] at h ⊢ <;>
    first
      | exact read_value_ext h
      | exact read_event_ext h
      | exact read_sized_ext h

theorem value_conv_dropLast_nil {object_id data v}
    (h : value_conv object_id data = .ok (v, [])) :
    value_conv object_id data.dropLast = .error (.IoError .UnexpectedEof) := by
  cases object_id <;>
    simp only [value_conv, int_from.uint8, int_from.sint8, int_from.uint16,
      int_from.sint16, int_from.uint24, int_from.sint24, int_from.uint32, int_from.sint32,
      int_from.uint48, int_from.uint64, float_from.uint8, float_from.sint8, float_from.uint16,
      float_from.sint16, float_from.uint24, float_from.sint24, float_from.uint32,
      float_from.sint32, float_from.uint48, float_from.uint64, read_bool, read_bytes,
      read_text, read_button_event, read_dimmer_event] at h ⊢ <;>
    first
      | exact read_value_dropLast_nil (by omega) h
      | exact read_event_dropLast_nil (by omega) h
      | exact read_sized_dropLast_nil h

theorem value_conv_dropLast_ne {object_id data v rest} (hne : rest ≠ [])
    (h : value_conv object_id data = .ok (v, rest)) :
    value_conv object_id data.dropLast = .ok (v, rest.dropLast) := by
  cases object_id <;>
    simp only [value_conv, int_from.uint8, int_from.sint8, int_from.uint16,
      int_from.sint16, int_from.uint24, int_from.sint24, int_from.uint32, int_from.sint32,
      int_from.uint48, int_from.uint64, float_from.uint8, float_from.sint8, float_from.uint16,
      float_from.sint16, float_from.uint24, float_from.sint24, float_from.uint32,
      float_from.sint32, float_from.uint48, float_from.uint64, read_bool, read_bytes,
      read_text, read_button_event, read_dimmer_event] at h ⊢ <;>
    first
      | exact read_value_dropLast_ne hne h
      | exact read_event_dropLast_ne hne h
      | exact read_sized_dropLast_ne hne h

theorem value_conv_suffix {object_id data v rest}
    (h : value_conv object_id data = .ok (v, rest)) : rest <:+ data := by
  cases object_id <;>
    simp only [value_conv, int_from.uint8, int_from.sint8, int_from.uint16,
      int_from.sint16, int_from.uint24, int_from.sint24, int_from.uint32, int_from.sint32,
      int_from.uint48, int_from.uint64, float_from.uint8, float_from.sint8, float_from.uint16,
      float_from.sint16, float_from.uint24, float_from.sint24, float_from.uint32,
      float_from.sint32, float_from.uint48, float_from.uint64, read_bool, read_bytes,
      read_text, read_button_event, read_dimmer_event] at h <;>
    first
      | exact read_value_suffix h
      | exact read_event_suffix h
      | exact read_sized_suffix h

theorem sizeInv_of_not_sized {v : ObjectValue}
    (h : ∀ bs, v ≠ .Raw bs ∧ v ≠ .Text bs) : sizeInv v :=
  ⟨fun bs hbs => absurd hbs (h bs).1, fun bs hbs => absurd hbs (h bs).2⟩

theorem value_conv_sizeInv {object_id data v rest} (hb : ∀ x ∈ data, x < 256)
    (h : value_conv object_id data = .ok (v, rest)) : sizeInv v := by
  cases object_id <;>
    simp only [value_conv, int_from.uint8, int_from.sint8, int_from.uint16,
      int_from.sint16, int_from.uint24, int_from.sint24, int_from.uint32, int_from.sint32,
      int_from.uint48, int_from.uint64, float_from.uint8, float_from.sint8, float_from.uint16,
      float_from.sint16, float_from.uint24, float_from.sint24, float_from.uint32,
      float_from.sint32, float_from.uint48, float_from.uint64, read_bool, read_bytes,
      read_text, read_button_event, read_dimmer_event] at h <;>
    first
      | -- fixed-width numeric and boolean decoders never produce Raw or Text
        (obtain ⟨bs, hv⟩ := read_value_shape h
         refine sizeInv_of_not_sized fun c => ⟨fun hc => ?_, fun hc => ?_⟩ <;>
           (rw [hv] at hc; simp at hc))
      | -- event decoders never produce Raw or Text
        (obtain ⟨bs, hg⟩ := read_event_shape h
         try dsimp only at hg
         split at hg
         · cases hg
         · cases hg
           exact sizeInv_of_not_sized fun c => ⟨fun hc => (nomatch hc), fun hc => nomatch hc⟩)
      | -- Raw: the byte list was read under a one-byte length prefix
        (obtain ⟨bs, hg, hlen⟩ := read_sized_shape h
         try dsimp only at hg
         cases hg
         refine ⟨fun c hc => ?_, fun c hc => ?_⟩
         · injection hc with h2
           subst h2
           exact hlen hb
         · exact absurd hc (by simp))
      | -- Text: likewise, after the UTF-8 check
        (obtain ⟨bs, hg, hlen⟩ := read_sized_shape h
         try dsimp only at hg
         split at hg
         · cases hg
           refine ⟨fun c hc => ?_, fun c hc => ?_⟩
           · exact absurd hc (by simp)
           · injection hc with h2
             subst h2
             exact hlen hb
         · cases hg)

theorem value_from_raw_eq_ok {object_id data obj rest} :
    value_from_raw object_id data = .ok (obj, rest) ↔
      ∃ v, value_conv object_id data = .ok (v, rest) ∧
        obj = { object_id := object_id, value := v } := by
  constructor
  · intro h
    unfold value_from_raw at h
    split at h
    · cases h
    · next v r heq =>
      simp only [Except.ok.injEq, Prod.mk.injEq] at h
      exact ⟨v, by rw [heq, h.2], h.1.symm⟩
  · rintro ⟨v, hv, hobj⟩
    unfold value_from_raw
    split
    · next heq => rw [hv] at heq; cases heq
    · next v2 r2 heq =>
      rw [hv] at heq
      simp only [Except.ok.injEq, Prod.mk.injEq] at heq
      obtain ⟨h1, h2⟩ := heq
      subst h1
      subst h2
      rw [hobj]

theorem value_from_raw_err {object_id data e}
    (h : value_conv object_id data = .error e) :
    value_from_raw object_id data = .error e := by
  unfold value_from_raw
  split
  · next heq => rw [h] at heq; cases heq; rfl
  · next v r heq => rw [h] at heq; cases heq

/-! ### Properties of the object loop -/

theorem parseObjects_length : ∀ (fuel : Nat) (l : List Nat) objs,
    parseObjects fuel l = .ok objs → objs.length ≤ l.length := by
  intro fuel
  induction fuel with
  | zero =>
    intro l objs h
    cases l with
    | nil =>
      simp only [parseObjects, Except.ok.injEq] at h
      subst h
      simp
    | cons b rest => simp only [parseObjects] at h; cases h
  | succ fuel ih =>
    intro l objs h
    cases l with
    | nil =>
      simp only [parseObjects, Except.ok.injEq] at h
      subst h
      simp
    | cons b rest =>
      simp only [parseObjects] at h
      split at h
      · cases h
      · next object_id heq =>
        split at h
        · cases h
        · next obj rest2 heq2 =>
          split at h
          · cases h
          · next objs2 heq3 =>
            cases h
            obtain ⟨v, hv, -⟩ := value_from_raw_eq_ok.mp heq2
            have hlen := (value_conv_suffix hv).length_le
            have hrec := ih rest2 objs2 heq3
            simp only [List.length_cons]
            omega

theorem parseObjects_ext : ∀ (fuel : Nat) (l : List Nat) objs,
    parseObjects fuel l = .ok objs →
    ∀ (b : Nat) (rest : List Nat) (fuel2 : Nat),
      ObjectId.try_from b = .error (.InvalidObjectId b) →
      objs.length < fuel2 →
      parseObjects fuel2 (l ++ b :: rest) = .error (.InvalidObjectId b) := by
  intro fuel
  induction fuel with
  | zero =>
    intro l objs h b rest fuel2 hb hlen
    cases l with
    | nil =>
      simp only [parseObjects, Except.ok.injEq] at h
      subst h
      obtain ⟨f2, rfl⟩ : ∃ f2, fuel2 = f2 + 1 := ⟨fuel2 - 1, by simp at hlen; omega⟩
      simp only [List.nil_append, List.append_eq, parseObjects]
      split
      · next heq => rw [hb] at heq; cases heq; rfl
      · next oid heq => rw [hb] at heq; cases heq
    | cons x xs => simp only [parseObjects] at h; cases h
  | succ fuel ih =>
    intro l objs h b rest fuel2 hb hlen
    cases l with
    | nil =>
      simp only [parseObjects, Except.ok.injEq] at h
      subst h
      obtain ⟨f2, rfl⟩ : ∃ f2, fuel2 = f2 + 1 := ⟨fuel2 - 1, by simp at hlen; omega⟩
      simp only [List.nil_append, List.append_eq, parseObjects]
      split
      · next heq => rw [hb] at heq; cases heq; rfl
      · next oid heq => rw [hb] at heq; cases heq
    | cons x xs =>
      simp only [parseObjects] at h
      split at h
      · cases h
      · next object_id heq =>
        split at h
        · cases h
        · next obj rest2 heq2 =>
          split at h
          · cases h
          · next objs2 heq3 =>
            cases h
            obtain ⟨f2, rfl⟩ : ∃ f2, fuel2 = f2 + 1 :=
              ⟨fuel2 - 1, by simp at hlen; omega⟩
            obtain ⟨v, hv, hobj⟩ := value_from_raw_eq_ok.mp heq2
            have hfr : value_from_raw object_id (xs ++ b :: rest) =
                .ok (obj, rest2 ++ b :: rest) :=
              value_from_raw_eq_ok.mpr ⟨v, value_conv_ext hv, hobj⟩
            have hrec : parseObjects f2 (rest2 ++ b :: rest) =
                .error (.InvalidObjectId b) :=
              ih rest2 objs2 heq3 b rest f2 hb (by simp at hlen; omega)
            simp only [List.cons_append, List.append_eq, parseObjects]
            split
            · next heq' => rw [heq] at heq'; cases heq'
            · next oid2 heq' =>
              rw [heq] at heq'
              cases heq'
              split
              · next heq2' => rw [hfr] at heq2'; cases heq2'
              · next obj2 rest22 heq2' =>
                rw [hfr] at heq2'
                simp only [Except.ok.injEq, Prod.mk.injEq] at heq2'
                obtain ⟨ho, hr⟩ := heq2'
                subst ho
                subst hr
                split
                · next heq3' => rw [hrec] at heq3'; cases heq3'; rfl
                · next objs3 heq3' => rw [hrec] at heq3'; cases heq3'

theorem parseObjects_dropLast : ∀ (fuel : Nat) (l : List Nat) objs,
    parseObjects fuel l = .ok objs → l ≠ [] →
    ∀ (fuel2 : Nat),
      parseObjects fuel2 l.dropLast = .error (.IoError .UnexpectedEof) := by
  intro fuel
  induction fuel with
  | zero =>
    intro l objs h hne fuel2
    cases l with
    | nil => exact absurd rfl hne
    | cons x xs => simp only [parseObjects] at h; cases h
  | succ fuel ih =>
    intro l objs h hne fuel2
    cases l with
    | nil => exact absurd rfl hne
    | cons x xs =>
      simp only [parseObjects] at h
      split at h
      · cases h
      · next object_id heq =>
        split at h
        · cases h
        · next obj rest2 heq2 =>
          split at h
          · cases h
          · next objs2 heq3 =>
            cases h
            obtain ⟨v, hv, hobj⟩ := value_from_raw_eq_ok.mp heq2
            by_cases hxs : xs = []
            · subst hxs
              rw [value_from_raw_err (value_conv_empty object_id)] at heq2
              cases heq2
            · rw [List.dropLast_cons_of_ne_nil hxs]
              cases fuel2 with
              | zero => rfl
              | succ f2 =>
                by_cases hr2 : rest2 = []
                · subst hr2
                  have hvd := value_conv_dropLast_nil hv
                  simp only [parseObjects]
                  split
                  · next heq' => rw [heq] at heq'; cases heq'
                  · next oid2 heq' =>
                    rw [heq] at heq'
                    cases heq'
                    split
                    · next heq2' =>
                      rw [value_from_raw_err hvd] at heq2'
                      cases heq2'
                      rfl
                    · next obj2 rest22 heq2' =>
                      rw [value_from_raw_err hvd] at heq2'
                      cases heq2'
                · have hfr : value_from_raw object_id xs.dropLast =
                      .ok (obj, rest2.dropLast) :=
                    value_from_raw_eq_ok.mpr ⟨v, value_conv_dropLast_ne hr2 hv, hobj⟩
                  have hrec := ih rest2 objs2 heq3 hr2 f2
                  simp only [parseObjects]
                  split
                  · next heq' => rw [heq] at heq'; cases heq'
                  · next oid2 heq' =>
                    rw [heq] at heq'
                    cases heq'
                    split
                    · next heq2' => rw [hfr] at heq2'; cases heq2'
                    · next obj2 rest22 heq2' =>
                      rw [hfr] at heq2'
                      simp only [Except.ok.injEq, Prod.mk.injEq] at heq2'
                      obtain ⟨ho, hr⟩ := heq2'
                      subst ho
                      subst hr
                      split
                      · next heq3' => rw [hrec] at heq3'; cases heq3'; rfl
                      · next objs3 heq3' => rw [hrec] at heq3'; cases heq3'

theorem parseObjects_sizeInv : ∀ (fuel : Nat) (l : List Nat) objs,
    parseObjects fuel l = .ok objs → (∀ x ∈ l, x < 256) →
    ∀ o ∈ objs, sizeInv o.value := by
  intro fuel
  induction fuel with
  | zero =>
    intro l objs h hb o ho
    cases l with
    | nil =>
      simp only [parseObjects, Except.ok.injEq] at h
      subst h
      cases ho
    | cons x xs => simp only [parseObjects] at h; cases h
  | succ fuel ih =>
    intro l objs h hb o ho
    cases l with
    | nil =>
      simp only [parseObjects, Except.ok.injEq] at h
      subst h
      cases ho
    | cons x xs =>
      simp only [parseObjects] at h
      split at h
      · cases h
      · next object_id heq =>
        split at h
        · cases h
        · next obj rest2 heq2 =>
          split at h
          · cases h
          · next objs2 heq3 =>
            cases h
            obtain ⟨v, hv, hobj⟩ := value_from_raw_eq_ok.mp heq2
            have hxs : ∀ y ∈ xs, y < 256 := fun y hy => hb y (List.mem_cons_of_mem x hy)
            cases ho with
            | head =>
              subst hobj
              exact value_conv_sizeInv hxs hv
            | tail _ ho2 =>
              have hsub := (value_conv_suffix hv).subset
              exact ih rest2 objs2 heq3 (fun y hy => hxs y (hsub hy)) o ho2

/-! ### Characterizing `parse_service_data` in terms of the object loop -/

theorem parse_nil : parse_service_data [] = .error (.IoError .UnexpectedEof) := rfl

theorem parse_cons_eq_ok {d0 : Nat} {drest : List Nat} {sd : ServiceData} :
    parse_service_data (d0 :: drest) = .ok sd ↔
      ∃ objs, parseObjects drest.length drest = .ok objs ∧
        sd = { encrypted := d0 &&& 1 == 1, trigger_based := d0 &&& 4 == 1,
               version := d0 >>> 5, objects := objs } := by
  have hre : read_exact 1 (d0 :: drest) = .ok ([d0], drest) := by simp [read_exact]
  constructor
  · intro h
    unfold parse_service_data at h
    split at h
    · cases h
    · next head r heq =>
      rw [hre] at heq
      simp only [Except.ok.injEq, Prod.mk.injEq] at heq
      obtain ⟨hh, hr⟩ := heq
      subst hh
      subst hr
      split at h
      · cases h
      · next objs heq2 =>
        simp only [Except.ok.injEq] at h
        exact ⟨objs, heq2, h.symm⟩
  · rintro ⟨objs, hobjs, hsd⟩
    unfold parse_service_data
    split
    · next heq => rw [hre] at heq; cases heq
    · next head r heq =>
      rw [hre] at heq
      simp only [Except.ok.injEq, Prod.mk.injEq] at heq
      obtain ⟨hh, hr⟩ := heq
      subst hh
      subst hr
      split
      · next heq2 => rw [hobjs] at heq2; cases heq2
      · next objs2 heq2 =>
        rw [hobjs] at heq2
        cases heq2
        rw [hsd]
        rfl

theorem parse_cons_eq_err {d0 : Nat} {drest : List Nat} {e : Error} :
    parse_service_data (d0 :: drest) = .error e ↔
      parseObjects drest.length drest = .error e := by
  have hre : read_exact 1 (d0 :: drest) = .ok ([d0], drest) := by simp [read_exact]
  constructor
  · intro h
    unfold parse_service_data at h
    split at h
    · next heq => rw [hre] at heq; cases heq
    · next head r heq =>
      rw [hre] at heq
      simp only [Except.ok.injEq, Prod.mk.injEq] at heq
      obtain ⟨hh, hr⟩ := heq
      subst hh
      subst hr
      split at h
      · next heq2 => cases h; exact heq2
      · cases h
  · intro h
    unfold parse_service_data
    split
    · next heq => rw [hre] at heq; cases heq
    · next head r heq =>
      rw [hre] at heq
      simp only [Except.ok.injEq, Prod.mk.injEq] at heq
      obtain ⟨hh, hr⟩ := heq
      subst hh
      subst hr
      split
      · next heq2 => rw [h] at heq2; cases heq2; rfl
      · next objs heq2 => rw [h] at heq2; cases heq2

/-- The bit test `n &&& 0b100 == 1` of the source can never hold: the
conjunction with `4` has bit 0 clear. -/
theorem and_four_ne_one (n : Nat) : n &&& 4 ≠ 1 := by
  intro hc
  have h4 : n &&& 4 = (n.testBit 2).toNat * 2 ^ 2 := Nat.and_two_pow n 2
  rcases Bool.eq_false_or_eq_true (n.testBit 2) with hb | hb <;> rw [hb] at h4 <;>
    simp at h4 <;> omega

/-! ### The claims -/

/-- C1: the claim says bit 2 of the header sets `trigger_based`.  The
code computes `head[0] & 0b00000100 == 1`, which compares against `1` a
value that is always `0` or `4`, so `trigger_based` is `false` for every
input — including the claim's own example `0b00000101`, whose bit 2 is
set.  (`encrypted` and `version` do come out as the claim says.) -/
theorem trigger_based_always_false :
    parse_service_data [0b00000101] =
      .ok { encrypted := true, trigger_based := false, version := 0, objects := [] } ∧
    ∀ (head : Nat) (rest : List Nat) (sd : ServiceData),
      parse_service_data (head :: rest) = .ok sd → sd.trigger_based = false := by
  refine ⟨rfl, fun head rest sd h => ?_⟩
  obtain ⟨objs, -, hsd⟩ := parse_cons_eq_ok.mp h
  rw [hsd]
  show (head &&& 4 == 1) = false
  rw [beq_eq_false_iff_ne]
  exact and_four_ne_one head

theorem trigger_based_always_false_witness :
    (({ encrypted := true, trigger_based := false, version := 0,
        objects := [] } : ServiceData)).trigger_based = false :=
  trigger_based_always_false.2 5 []
    { encrypted := true, trigger_based := false, version := 0, objects := [] } rfl

/-- C2: the claim says the `uint64` decoder consumes 8 bytes.  The
source row `(uint64, u64, 8, 6)` makes it consume 6: on the 8-byte input
`[1,2,3,4,5,6,7,8]` it returns the little-endian value of the first 6
bytes and leaves `[7,8]` unconsumed, so a `FirmwareVersionSmall` record
followed by 8 value bytes parses as the 6-byte value plus a spurious
further object. -/
theorem uint64_decoder_consumes_six_bytes :
    int_from.uint64 [1, 2, 3, 4, 5, 6, 7, 8] = .ok (.Int 0x060504030201, [7, 8]) ∧
    parse_service_data [0, 0xF2, 1, 0, 0, 0, 0, 0, 1, 5] =
      .ok { encrypted := false, trigger_based := false, version := 0,
            objects := [{ object_id := .FirmwareVersionSmall, value := .Int 1 },
                        { object_id := .Battery, value := .Int 5 }] } :=
  ⟨rfl, rfl⟩

/-- C3: an invalid button event byte does produce
`InvalidButtonEvent`, but an invalid dimmer event byte produces
`InvalidObjectId` — the unknown-identifier error — because
`DimmerEvent::try_from`'s fallback arm returns `Error::InvalidObjectId(v)`;
the `InvalidDimmerEvent` variant the claim names exists in the source
but is never constructed. -/
theorem invalid_dimmer_event_error_variant :
    DimmerEvent.try_from 3 = .error (.InvalidObjectId 3) ∧
    parse_service_data [0, 0x3C, 3, 0] = .error (.InvalidObjectId 3) ∧
    ButtonEvent.try_from 7 = .error (.InvalidButtonEvent 7) ∧
    parse_service_data [0, 0x3A, 7] = .error (.InvalidButtonEvent 7) :=
  ⟨rfl, rfl, rfl, rfl⟩

/-- C4: the claim says the sint24 decoder sign-extends from bit 23.  The
source reads the 3 bytes into the low bytes of a zero-initialized 4-byte
buffer and interprets it as `i32`, so the sign bit examined is bit 31 —
always 0 — and `[0xFF, 0xFF, 0xFF]` decodes to `16777215`, not `-1`: no
negative value can come out of the decoder. -/
theorem sint24_zero_extended :
    int_from.sint24 [0xFF, 0xFF, 0xFF] = .ok (.Int 16777215, []) ∧
    ¬ ∃ v : Int, v < 0 ∧ int_from.sint24 [0xFF, 0xFF, 0xFF] = .ok (.Int v, []) := by
  refine ⟨rfl, ?_⟩
  rintro ⟨v, hneg, hv⟩
  simp only [show int_from.sint24 [0xFF, 0xFF, 0xFF] = .ok (.Int 16777215, []) from rfl,
    Except.ok.injEq, Prod.mk.injEq, ObjectValue.Int.injEq] at hv
  omega

/-- C5: a payload that parses, extended with an identifier byte outside
the catalog, always fails with `InvalidObjectId` of that byte — whatever
bytes follow it — and the whole call returns that single error. -/
theorem unknown_identifier_aborts_parse :
    ∀ (head : Nat) (l : List Nat) (sd : ServiceData),
      parse_service_data (head :: l) = .ok sd →
      ∀ b : Nat, ObjectId.try_from b = .error (.InvalidObjectId b) →
      ∀ rest : List Nat,
        parse_service_data (head :: (l ++ b :: rest)) = .error (.InvalidObjectId b) := by
  intro head l sd h b hb rest
  obtain ⟨objs, hobjs, -⟩ := parse_cons_eq_ok.mp h
  apply parse_cons_eq_err.mpr
  apply parseObjects_ext l.length l objs hobjs b rest _ hb
  have h1 := parseObjects_length l.length l objs hobjs
  simp only [List.length_append, List.length_cons]
  omega

theorem unknown_identifier_aborts_parse_witness :
    parse_service_data [0, 0x01, 5, 0xFE, 0x01, 5] = .error (.InvalidObjectId 0xFE) :=
  unknown_identifier_aborts_parse 0 [0x01, 5]
    { encrypted := false, trigger_based := false, version := 0,
      objects := [{ object_id := .Battery, value := .Int 5 }] }
    rfl 0xFE rfl [0x01, 5]

/-- C6: the empty buffer fails with the truncation error (the header
read hits end of input); a buffer holding only the header byte parses
successfully with an empty object list. -/
theorem empty_input_and_header_only :
    parse_service_data [] = .error (.IoError .UnexpectedEof) ∧
    ∀ head : Nat,
      parse_service_data [head] =
        .ok { encrypted := head &&& 1 == 1, trigger_based := head &&& 4 == 1,
              version := head >>> 5, objects := [] } :=
  ⟨rfl, fun _ => rfl⟩

/-- C7: dropping the final byte of any payload that parses successfully
makes the parse fail with the truncation error; it never succeeds with a
shorter object sequence. -/
theorem truncated_valid_payload_errors :
    ∀ (data : List Nat) (sd : ServiceData), parse_service_data data = .ok sd →
      parse_service_data data.dropLast = .error (.IoError .UnexpectedEof) := by
  intro data sd h
  cases data with
  | nil => rw [parse_nil] at h; cases h
  | cons d0 drest =>
    obtain ⟨objs, hobjs, -⟩ := parse_cons_eq_ok.mp h
    by_cases hd : drest = []
    · subst hd
      exact parse_nil
    · rw [List.dropLast_cons_of_ne_nil hd]
      exact parse_cons_eq_err.mpr (parseObjects_dropLast drest.length drest objs hobjs hd _)

theorem truncated_valid_payload_errors_witness :
    parse_service_data [0, 0x01, 5].dropLast = .error (.IoError .UnexpectedEof) :=
  truncated_valid_payload_errors [0, 0x01, 5]
    { encrypted := false, trigger_based := false, version := 0,
      objects := [{ object_id := .Battery, value := .Int 5 }] } rfl

/-- C8: the boolean decoder reads one byte and yields `Bool true`
exactly when that byte is zero, as the zero-is-true wire convention
prescribes; the two PowerOn example payloads decode accordingly. -/
theorem bool_decoder_true_iff_zero :
    (∀ (b : Nat) (rest : List Nat), read_bool (b :: rest) = .ok (.Bool (b == 0), rest)) ∧
    parse_service_data [0, 0x10, 0x00] =
      .ok { encrypted := false, trigger_based := false, version := 0,
            objects := [{ object_id := .PowerOn, value := .Bool true }] } ∧
    parse_service_data [0, 0x10, 0x01] =
      .ok { encrypted := false, trigger_based := false, version := 0,
            objects := [{ object_id := .PowerOn, value := .Bool false }] } := by
  refine ⟨fun b rest => read_value_eq_ok.mpr ⟨[b], by simp [read_exact], by simp [fromLeBytes]⟩,
    rfl, rfl⟩

/-- C10: in every successful parse, each `Raw` and each `Text` value
holds at most 255 bytes, because the length prefix is one byte. -/
theorem raw_text_length_bound :
    ∀ (data : List Nat) (sd : ServiceData), parse_service_data data = .ok sd →
      (∀ x ∈ data, x < 256) →
      ∀ o ∈ sd.objects,
        (∀ bs, o.value = .Raw bs → bs.length ≤ 255) ∧
        (∀ bs, o.value = .Text bs → bs.length ≤ 255) := by
  intro data sd h hb o ho
  cases data with
  | nil => rw [parse_nil] at h; cases h
  | cons d0 drest =>
    obtain ⟨objs, hobjs, hsd⟩ := parse_cons_eq_ok.mp h
    subst hsd
    exact parseObjects_sizeInv drest.length drest objs hobjs
      (fun y hy => hb y (List.mem_cons_of_mem d0 hy)) o ho

theorem raw_text_length_bound_witness :
    ([9, 9] : List Nat).length ≤ 255 :=
  (raw_text_length_bound [0, 0x54, 2, 9, 9]
    { encrypted := false, trigger_based := false, version := 0,
      objects := [{ object_id := .Raw, value := .Raw [9, 9] }] }
    rfl (by decide)
    { object_id := .Raw, value := .Raw [9, 9] } (by simp)).1 [9, 9] rfl

/-! ### Exactness bounds of the `f32` model, for the numeric-precision
claim -/

theorem oddify_spec : ∀ (fuel m : Nat) (e : Int),
    (((oddify fuel m e).1 : ℚ) * (2 : ℚ) ^ (oddify fuel m e).2) = (m : ℚ) * (2 : ℚ) ^ e := by
  intro fuel
  induction fuel with
  | zero => intro m e; rfl
  | succ fuel ih =>
    intro m e
    by_cases hc : m % 2 = 0 ∧ m ≠ 0
    · rw [show oddify (fuel + 1) m e = oddify fuel (m / 2) (e + 1) from by
        simp only [oddify, if_pos hc]]
      rw [ih (m / 2) (e + 1)]
      obtain ⟨k, hk⟩ := Nat.dvd_of_mod_eq_zero hc.1
      subst hk
      rw [Nat.mul_div_cancel_left k (by norm_num)]
      push_cast
      rw [zpow_add_one₀ (by norm_num : (2 : ℚ) ≠ 0)]
      ring
    · rw [show oddify (fuel + 1) m e = (m, e) from by simp only [oddify, if_neg hc]]

theorem natBits_le : ∀ (fuel k n : Nat), n < 2 ^ k → k ≤ fuel → natBits fuel n ≤ k := by
  intro fuel
  induction fuel with
  | zero => intro k n h hk; simp [natBits]
  | succ fuel ih =>
    intro k n h hk
    by_cases hn : n ≤ 1
    · rw [show natBits (fuel + 1) n = n from by simp [natBits, hn]]
      rcases Nat.lt_or_ge n 1 with h0 | h1
      · omega
      · have hk0 : k ≠ 0 := by
          intro hk0
          subst hk0
          simp at h
          omega
        omega
    · rw [show natBits (fuel + 1) n = natBits fuel (n / 2) + 1 from by simp [natBits, hn]]
      have hk1 : 1 ≤ k := by
        rcases Nat.eq_zero_or_pos k with rfl | hp
        · simp at h; omega
        · exact hp
      have h2 : 2 ^ k = 2 * 2 ^ (k - 1) := by
        rw [← pow_succ']
        congr 1
        omega
      have hrec := ih (k - 1) (n / 2) (by omega) (by omega)
      omega

/-- Integers of magnitude up to `2 ^ 24` convert to binary32 exactly;
beyond that the 24-bit mantissa rounds (see the C9 counterexample). -/
theorem f32ofInt_nat_toRat : ∀ v : Nat, v ≤ 2 ^ 24 →
    (f32ofInt (v : Int)).toRat = (v : ℚ) := by
  intro v hv
  rcases Nat.lt_or_ge v (2 ^ 24) with hlt | hge
  · by_cases hv0 : v = 0
    · subst hv0
      show (f32round 0 0).toRat = _
      norm_num [f32round, F32.toRat]
    · have hne : (v : Int) ≠ 0 := by exact_mod_cast hv0
      unfold f32ofInt f32round
      rw [if_neg hne, Int.natAbs_ofNat]
      unfold f32normPos
      rw [if_pos (natBits_le 64 24 v hlt (by norm_num))]
      show F32.toRat
        ⟨if (v : Int) < 0 then -(((oddify 64 v 0).1 : Nat) : Int)
         else (((oddify 64 v 0).1 : Nat) : Int), (oddify 64 v 0).2⟩ = (v : ℚ)
      rw [if_neg (by omega : ¬((v : Int) < 0)), F32.toRat_mk]
      have hs := oddify_spec 64 v 0
      push_cast at hs ⊢
      rw [zpow_zero, mul_one] at hs
      exact hs
  · have hv24 : v = 2 ^ 24 := by omega
    subst hv24
    have h1 : f32ofInt (((2 : Nat) ^ 24 : Nat) : Int) = ⟨1, 24⟩ := by decide
    rw [h1]
    show (1 : ℚ) * (2 : ℚ) ^ (24 : Int) = _
    rw [show (24 : Int) = ((24 : Nat) : Int) from rfl, zpow_natCast]
    push_cast
    norm_num

/-- C9, counterexample: two distinct EnergyU32 wire integers (`2 ^ 25`
and `2 ^ 25 + 1`, both within 32-bit magnitude) decode to the *same*
`Float`, because the wire integer passes through `f32` (24-bit mantissa)
before scaling — yet their exact products with the 0.001 scale factor
differ.  So the scaled-float decoders do not preserve full precision up
to 32-bit magnitudes. -/
theorem float_wire_precision_collapse :
    parse_service_data [0, 0x4D, 0, 0, 0, 2] =
      .ok { encrypted := false, trigger_based := false, version := 0,
            objects := [{ object_id := .EnergyU32, value := .Float ⟨8589935, -8⟩ }] } ∧
    parse_service_data [0, 0x4D, 1, 0, 0, 2] =
      .ok { encrypted := false, trigger_based := false, version := 0,
            objects := [{ object_id := .EnergyU32, value := .Float ⟨8589935, -8⟩ }] } ∧
    (33554432 : ℚ) * (1 / 1000) ≠ (33554433 : ℚ) * (1 / 1000) :=
  ⟨rfl, rfl, by norm_num⟩

/-- C9, amended: integer decoding is exact for every integer decoder the
catalog dispatches — `uint8`, `sint8`, `uint16`, `sint16`, `uint24`,
`uint32`, `sint32`, `uint48` and `uint64` — the decoded `Int` being the
little-endian integer of the bytes the decoder consumes, two's-complement
sign-extended per the declared signedness (the `uint64` decoder consuming
6 bytes, per the C2 defect) — while the scaled-float decoders route the
wire integer through binary32, which is exact only up to magnitude
`2 ^ 24`. -/
theorem numeric_decoding_precision :
    (∀ (b0 : Nat) (rest : List Nat),
      int_from.uint8 (b0 :: rest) = .ok (.Int b0, rest)) ∧
    (∀ (b0 : Nat) (rest : List Nat), b0 < 256 →
      int_from.sint8 (b0 :: rest) =
        .ok (.Int (if b0 < 128 then (b0 : Int) else (b0 : Int) - 256), rest)) ∧
    (∀ (b0 b1 : Nat) (rest : List Nat),
      int_from.uint16 (b0 :: b1 :: rest) = .ok (.Int ((b0 : Int) + 256 * b1), rest)) ∧
    (∀ (b0 b1 : Nat) (rest : List Nat), b0 < 256 → b1 < 256 →
      int_from.sint16 (b0 :: b1 :: rest) =
        .ok (.Int (if b0 + 256 * b1 < 32768 then ((b0 + 256 * b1 : Nat) : Int)
                   else ((b0 + 256 * b1 : Nat) : Int) - 65536), rest)) ∧
    (∀ (b0 b1 b2 : Nat) (rest : List Nat),
      int_from.uint24 (b0 :: b1 :: b2 :: rest) =
        .ok (.Int ((b0 : Int) + 256 * b1 + 65536 * b2), rest)) ∧
    (∀ (b0 b1 b2 b3 : Nat) (rest : List Nat),
      int_from.uint32 (b0 :: b1 :: b2 :: b3 :: rest) =
        .ok (.Int ((b0 : Int) + 256 * b1 + 65536 * b2 + 16777216 * b3), rest)) ∧
    (∀ (b0 b1 b2 b3 : Nat) (rest : List Nat),
      b0 < 256 → b1 < 256 → b2 < 256 → b3 < 256 →
      int_from.sint32 (b0 :: b1 :: b2 :: b3 :: rest) =
        .ok (.Int (if b0 + 256 * b1 + 65536 * b2 + 16777216 * b3 < 2147483648
                   then ((b0 + 256 * b1 + 65536 * b2 + 16777216 * b3 : Nat) : Int)
                   else ((b0 + 256 * b1 + 65536 * b2 + 16777216 * b3 : Nat) : Int)
                     - 4294967296), rest)) ∧
    (∀ (b0 b1 b2 b3 b4 b5 : Nat) (rest : List Nat),
      b0 < 256 → b1 < 256 → b2 < 256 → b3 < 256 → b4 < 256 → b5 < 256 →
      int_from.uint48 (b0 :: b1 :: b2 :: b3 :: b4 :: b5 :: rest) =
        .ok (.Int ((b0 : Int) + 256 * b1 + 65536 * b2 + 16777216 * b3 +
                   4294967296 * b4 + 1099511627776 * b5), rest)) ∧
    (∀ (b0 b1 b2 b3 b4 b5 : Nat) (rest : List Nat),
      b0 < 256 → b1 < 256 → b2 < 256 → b3 < 256 → b4 < 256 → b5 < 256 →
      int_from.uint64 (b0 :: b1 :: b2 :: b3 :: b4 :: b5 :: rest) =
        .ok (.Int ((b0 : Int) + 256 * b1 + 65536 * b2 + 16777216 * b3 +
                   4294967296 * b4 + 1099511627776 * b5), rest)) ∧
    (∀ v : Nat, v ≤ 2 ^ 24 → (f32ofInt (v : Int)).toRat = (v : ℚ)) := by
  refine ⟨fun b0 rest => ?_, fun b0 rest h0 => ?_, fun b0 b1 rest => ?_,
    fun b0 b1 rest h0 h1 => ?_, fun b0 b1 b2 rest => ?_, fun b0 b1 b2 b3 rest => ?_,
    fun b0 b1 b2 b3 rest h0 h1 h2 h3 => ?_,
    fun b0 b1 b2 b3 b4 b5 rest h0 h1 h2 h3 h4 h5 => ?_,
    fun b0 b1 b2 b3 b4 b5 rest h0 h1 h2 h3 h4 h5 => ?_,
    f32ofInt_nat_toRat⟩
  · exact read_value_eq_ok.mpr ⟨[b0], by simp [read_exact], by simp [fromLeBytes]⟩
  · refine read_value_eq_ok.mpr ⟨[b0], by simp [read_exact], ?_⟩
    simp only [toSigned, fromLeBytes, ObjectValue.Int.injEq]
    norm_num
  · refine read_value_eq_ok.mpr ⟨[b0, b1], by simp [read_exact], ?_⟩
    simp only [fromLeBytes, ObjectValue.Int.injEq]
    push_cast
    ring
  · refine read_value_eq_ok.mpr ⟨[b0, b1], by simp [read_exact], ?_⟩
    simp only [toSigned, fromLeBytes, ObjectValue.Int.injEq]
    norm_num
  · refine read_value_eq_ok.mpr ⟨[b0, b1, b2], by simp [read_exact], ?_⟩
    simp only [fromLeBytes, List.cons_append, List.nil_append, ObjectValue.Int.injEq]
    push_cast
    ring
  · refine read_value_eq_ok.mpr ⟨[b0, b1, b2, b3], by simp [read_exact], ?_⟩
    simp only [fromLeBytes, ObjectValue.Int.injEq]
    push_cast
    ring
  · refine read_value_eq_ok.mpr ⟨[b0, b1, b2, b3], by simp [read_exact], ?_⟩
    simp only [toSigned, fromLeBytes, ObjectValue.Int.injEq]
    norm_num
    rw [show b0 + 256 * b1 + 65536 * b2 + 16777216 * b3
        = b0 + 256 * (b1 + 256 * (b2 + 256 * b3)) from by ring]
    split <;> ring
  · refine read_value_eq_ok.mpr ⟨[b0, b1, b2, b3, b4, b5], by simp [read_exact], ?_⟩
    simp only [toSigned, fromLeBytes, List.cons_append, List.nil_append,
      ObjectValue.Int.injEq]
    rw [if_pos (by norm_num; omega)]
    push_cast
    ring
  · refine read_value_eq_ok.mpr ⟨[b0, b1, b2, b3, b4, b5], by simp [read_exact], ?_⟩
    simp only [toSigned, fromLeBytes, List.cons_append, List.nil_append,
      ObjectValue.Int.injEq]
    rw [if_pos (by norm_num; omega)]
    push_cast
    ring

theorem numeric_decoding_precision_witness :
    int_from.sint16 [0xFF, 0xFF] = .ok (.Int (-1), []) ∧
    int_from.uint64 [1, 2, 3, 4, 5, 6] = .ok (.Int 0x060504030201, []) ∧
    (f32ofInt ((100 : Nat) : Int)).toRat = ((100 : Nat) : ℚ) := by
  refine ⟨?_, ?_, numeric_decoding_precision.2.2.2.2.2.2.2.2.2 100 (by decide)⟩
  · have h := numeric_decoding_precision.2.2.2.1 0xFF 0xFF [] (by decide) (by decide)
    norm_num at h
    exact h
  · have h := numeric_decoding_precision.2.2.2.2.2.2.2.2.1 1 2 3 4 5 6 []
      (by decide) (by decide) (by decide) (by decide) (by decide) (by decide)
    norm_num at h
    exact h

end BTHome
